import Mathlib

/-!
Verification development for the smart-home telemetry backend
(`backend/src/controllers/TelemetryController.ts`, `backend/src/websocket.ts`,
`backend/src/models/*`).

The JavaScript code is embedded shallowly:

* JSON request bodies are modelled by the inductive `JSValue`; JS numbers are
  `Option ℚ` (with `none` standing for `NaN`), so exact rational arithmetic
  replaces IEEE doubles.
* The MongoDB collections are modelled as Lean lists of documents; the
  aggregation pipelines of the controller are re-expressed as list
  computations over those documents.
* Platform functions that are outside the repository (the `Date` parser
  behind `new Date(s).getTime()`) are passed in as a parameter
  `pd : String → Option Int` mapping a string to its epoch-millisecond value
  (`none` for an unparsable string, mirroring `NaN`).
-/

/-- A JSON-ish JavaScript runtime value, as far as the controller code
inspects request bodies: `num none` models `NaN`. -/
inductive JSValue where
  | undef
  | null
  | bool (b : Bool)
  | num (v : Option ℚ)
  | str (s : String)
  | arr (elems : List JSValue)
  | obj (fields : List (String × JSValue))

/-- JavaScript `typeof` on the modelled values (`typeof null` is `"object"`,
arrays are `"object"` as well). -/
def jsTypeof : JSValue → String
  | JSValue.undef => "undefined"
  | JSValue.null => "object"
  | JSValue.bool _ => "boolean"
  | JSValue.num _ => "number"
  | JSValue.str _ => "string"
  | JSValue.arr _ => "object"
  | JSValue.obj _ => "object"

/-- JavaScript truthiness test: `!v` is true exactly on these values. -/
def jsFalsy : JSValue → Bool
  | JSValue.undef => true
  | JSValue.null => true
  | JSValue.bool b => !b
  | JSValue.num none => true
  | JSValue.num (some q) => q == 0
  | JSValue.str s => s == ""
  | JSValue.arr _ => false
  | JSValue.obj _ => false

/-- Property access `v.k`: missing properties and access on non-objects give
`undefined` (the controller only reads named fields of candidate readings). -/
def getField (v : JSValue) (k : String) : JSValue :=
  match v with
  | JSValue.obj fields =>
    match fields.find? (fun p => p.1 == k) with
    | some p => p.2
    | none => JSValue.undef
  | _ => JSValue.undef

/-- Models JavaScript `String.prototype.trim` by dropping whitespace from both
ends (the Lean core `String.trim` is not kernel-reducible, so the character
list is processed directly). -/
def jsTrim (s : String) : String :=
  String.mk (((s.data.dropWhile Char.isWhitespace).reverse.dropWhile Char.isWhitespace).reverse)

/-- Leading decimal digits of a character list: `none` when the first
character is not a digit, otherwise the parsed value (further characters are
ignored, as `parseInt` does). -/
def leadingNat (cs : List Char) : Option Nat :=
  match cs.takeWhile Char.isDigit with
  | [] => none
  | ds => some (ds.foldl (fun acc c => acc * 10 + (c.toNat - 48)) 0)

/-- Models JavaScript `parseInt(s, 10)`: skip leading whitespace, read an
optional sign and then leading digits; `none` models `NaN`. -/
def jsParseInt (s : String) : Option Int :=
  match s.data.dropWhile Char.isWhitespace with
  | '-' :: rest => (leadingNat rest).map (fun n => -(n : Int))
  | '+' :: rest => (leadingNat rest).map (fun n => (n : Int))
  | cs => (leadingNat cs).map (fun n => (n : Int))

/-- `validateReading` from `TelemetryController.ts`: the strict per-item
validator.  Each branch mirrors one early `return` of the source.  The
timestamp check reproduces `!new Date(reading.timestamp).getTime()`, which is
falsy both when the parse fails (`NaN`) and when the parsed value is the
epoch instant `0`. -/
def validateReading (pd : String → Option Int) (reading : JSValue) : Option String :=
  if jsFalsy reading || jsTypeof reading != "object" then
    some "Reading must be a non-null object."
  else if !(match getField reading "deviceId" with
            | JSValue.str s => (jsTrim s).length != 0
            | _ => false) then
    some "deviceId must be a non-empty string."
  else if !(match getField reading "timestamp" with
            | JSValue.str s =>
              match pd s with
              | some t => t != 0
              | none => false
            | _ => false) then
    some "timestamp must be a valid ISO date string."
  else if !(match getField reading "reading" with
            | JSValue.num v => v.isSome
            | _ => false) then
    some "reading must be a number."
  else if !(match getField reading "unit" with
            | JSValue.str s => (jsTrim s).length != 0
            | _ => false) then
    some "unit must be a non-empty string."
  else if !(match getField reading "location" with
            | JSValue.str s => (jsTrim s).length != 0
            | _ => false) then
    some "location must be a non-empty string."
  else if !(match getField reading "deviceType" with
            | JSValue.str s => (jsTrim s).length != 0
            | _ => false) then
    some "deviceType must be a non-empty string."
  else
    none

/-- The three response shapes of `POST /devices/ingest` (server errors of the
store are out of scope): `noData` is the 400 "No telemetry data provided."
response, `validationFailed` the 400 response carrying
`totalAttempted`/`failedCount`/`errors`, `accepted` the 202 response with its
`count`. -/
inductive IngestResponse where
  | noData
  | validationFailed (totalAttempted : Nat) (failedCount : Nat) (errors : List (Nat × String))
  | accepted (count : Nat)
deriving DecidableEq

/-- HTTP status of each ingestion response. -/
def IngestResponse.statusCode : IngestResponse → Nat
  | IngestResponse.noData => 400
  | IngestResponse.validationFailed _ _ _ => 400
  | IngestResponse.accepted _ => 202

/-- `Array.isArray(req.body) ? req.body : [req.body]`. -/
def readingsOf (body : JSValue) : List JSValue :=
  match body with
  | JSValue.arr elems => elems
  | _ => [body]

/-- The `{index, error}` list built by the validation `forEach` loop. -/
def invalidReadingsOf (pd : String → Option Int) (readings : List JSValue) :
    List (Nat × String) :=
  (List.enum readings).filterMap
    (fun p => (validateReading pd p.2).map (fun e => (p.1, e)))

/-- The readings that pass validation, in order. -/
def validReadingsOf (pd : String → Option Int) (readings : List JSValue) : List JSValue :=
  readings.filter (fun r => (validateReading pd r).isNone)

/-- `ingestTelemetry`, up to the bulk insert: returns the HTTP response and
the reading store after the call (`store ++ validReadings` exactly when the
batch is accepted, via `TelemetryReading.insertMany`). -/
def ingestTelemetry (pd : String → Option Int) (body : JSValue) (store : List JSValue) :
    IngestResponse × List JSValue :=
  let readings := readingsOf body
  if readings.length == 0 then
    (IngestResponse.noData, store)
  else
    let invalid := invalidReadingsOf pd readings
    if 0 < invalid.length then
      (IngestResponse.validationFailed readings.length invalid.length invalid, store)
    else
      let valid := validReadingsOf pd readings
      (IngestResponse.accepted valid.length, store ++ valid)

/-- A stored telemetry document (`ITelemetryReading`): timestamps are epoch
milliseconds, readings exact rationals. -/
structure Reading where
  deviceId : String
  timestampMs : Int
  reading : ℚ
  unit : String
  location : String
  deviceType : String
deriving DecidableEq

/-- One row of the `DeviceMetadata` collection (keyed by `deviceId`, which is
the Mongo `_id`). -/
structure DeviceRow where
  name : String
  location : String
  deviceType : String
  lastReported : Int
  status : String
deriving DecidableEq

/-- The `DeviceMetadata` collection: association list from `_id` to row. -/
abbrev Registry := List (String × DeviceRow)

/-- The update document of `upsertDeviceMetadata`'s `$set`. -/
def rowOf (r : Reading) : DeviceRow :=
  { name := r.deviceId, location := r.location, deviceType := r.deviceType,
    lastReported := r.timestampMs, status := "online" }

/-- `findByIdAndUpdate(id, {$set: row}, {upsert: true})`: replace the row if
the key exists, append it otherwise. -/
def setReg (reg : Registry) (id : String) (row : DeviceRow) : Registry :=
  if reg.any (fun p => p.1 == id) then
    reg.map (fun p => if p.1 == id then (id, row) else p)
  else
    reg ++ [(id, row)]

/-- `upsertDeviceMetadata` from `TelemetryController.ts`. -/
def upsertDeviceMetadata (r : Reading) (reg : Registry) : Registry :=
  setReg reg r.deviceId (rowOf r)

/-- Lookup by `_id`. -/
def lookupReg (reg : Registry) (id : String) : Option DeviceRow :=
  (reg.find? (fun p => p.1 == id)).map (fun p => p.2)

/-- Iteration order of `new Set(savedReadings.map(r => r.deviceId))`: each
device id once, at its first occurrence. -/
def uniqueFirst : List String → List String
  | [] => []
  | x :: xs => x :: (uniqueFirst xs).filter (fun y => y != x)

/-- One turn of the registry loop of `ingestTelemetry`:
`savedReadings.find(r => r.deviceId === deviceId)` feeds
`upsertDeviceMetadata`, and a missing device (impossible in practice) is
skipped by the `if (latestReading)` guard. -/
def upsertStep (saved : List Reading) (acc : Registry) (d : String) : Registry :=
  match saved.find? (fun r => r.deviceId == d) with
  | some r => upsertDeviceMetadata r acc
  | none => acc

/-- The whole registry loop of `ingestTelemetry` (lines 147-157): upsert once
per distinct `deviceId` of the inserted batch. -/
def processUpserts (saved : List Reading) (reg : Registry) : Registry :=
  (uniqueFirst (saved.map (fun r => r.deviceId))).foldl (upsertStep saved) reg

/-- `WebSocket.readyState` values. -/
inductive ReadyState where
  | connecting
  | opened
  | closing
  | closed
deriving DecidableEq

/-- One connection of `wss.clients` (only `readyState` is inspected). -/
structure WSClient where
  readyState : ReadyState
deriving DecidableEq

/-- The WebSocket server singleton: `clients` is its connection set. -/
structure WSServer where
  clients : List WSClient
deriving DecidableEq

/-- The envelope `JSON.stringify({event: "new_reading", data: reading})`,
kept structured (serialisation itself is a platform function). -/
structure BroadcastMsg where
  event : String
  data : Reading
deriving DecidableEq

/-- `broadcastNewReading` from `websocket.ts`, expressed by its observable
effect: the list of `(client, message)` sends it performs.  `none` models the
module-level `wss` still being `null`. -/
def broadcastNewReading (wss : Option WSServer) (reading : Reading) :
    List (WSClient × BroadcastMsg) :=
  match wss with
  | none => []
  | some w =>
    (w.clients.filter (fun c => decide (c.readyState = ReadyState.opened))).map
      (fun c => (c, { event := "new_reading", data := reading }))

/-- Floor of a rational, computed from its normalised numerator and
denominator (`Int` division is Euclidean division, and the denominator is
positive, so this is the mathematical floor; see `ratFloor_eq_floor`).
`Int.floor` itself is not kernel-reducible. -/
def ratFloor (q : ℚ) : Int := q.num / (q.den : Int)

/-- Pad a string with leading zeros up to width `n`. -/
def padZeros (n : Nat) (s : String) : String :=
  String.mk (List.replicate (n - s.length) '0') ++ s

/-- Models `Number.prototype.toFixed(f)` for non-negative exact rationals:
round to `f` decimal places (ties away from zero, i.e. upward here) and
render with exactly `f` digits after the point. -/
def toFixedNonneg (f : Nat) (q : ℚ) : String :=
  let scaled : Int := ratFloor (q * (10 : ℚ) ^ f + 1 / 2)
  let p : Int := (10 : Int) ^ f
  if f == 0 then toString scaled
  else toString (scaled / p) ++ "." ++ padZeros f (toString (scaled % p))

/-- Models `Number.prototype.toFixed(f)` on exact rationals. -/
def toFixed (f : Nat) (q : ℚ) : String :=
  if q < 0 then "-" ++ toFixedNonneg f (-q) else toFixedNonneg f q

/-- Civil date (year, month, day) of a day number counted from 1970-01-01,
in the proleptic Gregorian calendar used by `$dateToString` (UTC). -/
def civilFromDays (z0 : Int) : Int × Int × Int :=
  let z := z0 + 719468
  let era := z / 146097
  let doe := z - era * 146097
  let yoe := (doe - doe / 1460 + doe / 36524 - doe / 146096) / 365
  let y := yoe + era * 400
  let doy := doe - (365 * yoe + yoe / 4 - yoe / 100)
  let mp := (5 * doy + 2) / 153
  let d := doy - (153 * mp + 2) / 5 + 1
  let m := mp + (if mp < 10 then 3 else -9)
  (y + (if m ≤ 2 then 1 else 0), m, d)

/-- `$dateToString` with format `%Y-%m-%d`, applied to a day number. -/
def fmtDayIdx (d : Int) : String :=
  let c := civilFromDays d
  padZeros 4 (toString c.1) ++ "-" ++ padZeros 2 (toString c.2.1) ++ "-" ++
    padZeros 2 (toString c.2.2)

/-- `$dateToString` with format `%Y-%m-%dT%H`, applied to an hour number
(hours since the epoch). -/
def fmtHourIdx (h : Int) : String :=
  fmtDayIdx (h / 24) ++ "T" ++ padZeros 2 (toString (h % 24))

/-- Day-bucket label of an epoch-millisecond timestamp (`%Y-%m-%d`). -/
def fmtDay (ms : Int) : String := fmtDayIdx (ms / 86400000)

/-- Hour-bucket label of an epoch-millisecond timestamp (`%Y-%m-%dT%H`). -/
def fmtHour (ms : Int) : String := fmtHourIdx (ms / 3600000)

/-- Kernel-reducible lexicographic comparison on character lists (the Lean
core `String` order is not kernel-reducible). -/
def charListLe : List Char → List Char → Bool
  | [], _ => true
  | _ :: _, [] => false
  | a :: as, b :: bs => if a < b then true else if b < a then false else charListLe as bs

/-- Lexicographic (code-point) order on strings, as MongoDB's `$sort` orders
the ASCII bucket labels. -/
def strLe (a b : String) : Bool := charListLe a.data b.data

/-- The `$match` stage of `getEnergyTrends`: `timestamp >= startTime` (note:
no upper bound) and `unit = unitType`. -/
def trendMatched (startTime : Int) (unitType : String) (store : List Reading) : List Reading :=
  store.filter (fun r => decide (startTime ≤ r.timestampMs) && (r.unit == unitType))

/-- The `$group` + `$sort` stages: one bucket per distinct label, summing
`reading`, sorted ascending by label. -/
def trendBuckets (fmt : Int → String) (matched : List Reading) : List (String × ℚ) :=
  let labels := (matched.map (fun r => fmt r.timestampMs)).dedup
  (labels.insertionSort (fun a b => strLe a b = true)).map
    (fun lab =>
      (lab, ((matched.filter (fun r => fmt r.timestampMs == lab)).map (fun r => r.reading)).sum))

/-- One datum of the trends response: the `$project` stage emits the time
label and, under the field named `dataKey`, the (possibly converted) sum. -/
structure TrendPoint where
  timeLabel : String
  dataKey : String
  value : ℚ
deriving DecidableEq

/-- The `GET /telemetry/trends/total` response body. -/
structure TrendsResponse where
  window : String
  unit : String
  dataKey : String
  granularity : String
  data : List TrendPoint
deriving DecidableEq

/-- `getEnergyTrends`: query parameters are `Option String` (a missing
parameter falls back to the `extractString` default), `now` is `Date.now()`
and `store` the telemetry collection. -/
def getEnergyTrends (windowQ unitTypeQ : Option String) (now : Int) (store : List Reading) :
    TrendsResponse :=
  let window := windowQ.getD "24h"
  let unitType := unitTypeQ.getD "W"
  let startTime := if window == "7d" then now - 7 * 86400000 else now - 86400000
  let fmt := if window == "7d" then fmtDay else fmtHour
  let granularity := if window == "7d" then "day" else "hour"
  let raw := trendBuckets fmt (trendMatched startTime unitType store)
  { window := window,
    unit := if unitType == "W" then "kWh" else unitType,
    dataKey := if unitType == "W" then "usageKWh" else "totalReading",
    granularity := granularity,
    data := raw.map (fun b =>
      if unitType == "W" then
        { timeLabel := b.1, dataKey := "usageKWh", value := b.2 / 1000 }
      else
        { timeLabel := b.1, dataKey := "totalReading", value := b.2 }) }

/-- The `$match` stage of `getUsageBreakdown`: trailing seven days, unit
`"W"`. -/
def breakdownMatched (now : Int) (store : List Reading) : List Reading :=
  store.filter (fun r => decide (now - 604800000 ≤ r.timestampMs) && (r.unit == "W"))

/-- The grouping key: `deviceType` when `by=category`, else `location`
(`$ifNull` never fires on these documents, whose fields are present). -/
def breakdownKeyOf (byCat : Bool) (r : Reading) : String :=
  if byCat then r.deviceType else r.location

/-- Sum of `reading` over the documents of `l` whose key is `k` (one
`$group` accumulator). -/
def fiberSum (key : Reading → String) (l : List Reading) (k : String) : ℚ :=
  ((l.filter (fun r => key r == k)).map (fun r => r.reading)).sum

/-- The `GET /telemetry/breakdown` response body. -/
structure BreakdownResponse where
  groupBy : String
  unit : String
  data : List (String × ℚ)
deriving DecidableEq

/-- `getUsageBreakdown`: group the seven-day `"W"` documents by the selected
field, divide each group sum by 1000, and drop any group whose name is the
`$ifNull` sentinel (the final `$match` with `$nin`). -/
def getUsageBreakdown (byQ : Option String) (now : Int) (store : List Reading) :
    BreakdownResponse :=
  let byCat := byQ == some "category"
  let matched := breakdownMatched now store
  let keys := (matched.map (breakdownKeyOf byCat)).dedup
  let groups := keys.map (fun k => (k, fiberSum (breakdownKeyOf byCat) matched k / 1000))
  { groupBy := if byCat then "deviceType" else "location",
    unit := "kWh",
    data := groups.filter (fun g => g.1 != "UNKNOWN_OR_MISSING_FIELD") }

/-- The `$match` stage of `getTelemetrySummary`: trailing 24 hours (again no
upper bound). -/
def summaryMatched (now : Int) (store : List Reading) : List Reading :=
  store.filter (fun r => decide (now - 86400000 ≤ r.timestampMs))

/-- `$max` over a group of readings (the group is non-empty whenever it is
used). -/
def listMax : List ℚ → ℚ
  | [] => 0
  | [x] => x
  | x :: y :: xs => max x (listMax (y :: xs))

/-- The `GET /telemetry/summary` response body (the `unit` object is
flattened into the two `*Unit` fields; `timestamp` is omitted). -/
structure SummaryResponse where
  status : Nat
  totalUsage : String
  onlineDevices : Nat
  totalDevices : Nat
  highestReading : String
  totalUsageUnit : String
  highestReadingUnit : String
deriving DecidableEq

/-- `getTelemetrySummary`: aggregate the trailing-24h readings
(`usageResult[0]` exists exactly when the match is non-empty), count online
devices reported within five minutes, and format the two figures. -/
def getTelemetrySummary (now : Int) (store : List Reading) (devices : List DeviceRow) :
    SummaryResponse :=
  let matched := summaryMatched now store
  let onlineDevices :=
    (devices.filter (fun d => (d.status == "online") &&
      decide (now - 300000 ≤ d.lastReported))).length
  match matched.head? with
  | none =>
    { status := 200, totalUsage := "0.00", onlineDevices := onlineDevices,
      totalDevices := devices.length, highestReading := "0.0",
      totalUsageUnit := "kWh", highestReadingUnit := "W" }
  | some first =>
    let baseUnit := if first.unit == "" then "W" else first.unit
    { status := 200,
      totalUsage := toFixed 2 (((matched.map (fun r => r.reading)).sum) / 1000),
      onlineDevices := onlineDevices,
      totalDevices := devices.length,
      highestReading := toFixed 1 (listMax (matched.map (fun r => r.reading))),
      totalUsageUnit := "k" ++ baseUnit ++ "h",
      highestReadingUnit := baseUnit }

/-- Outcome of a paginated query handler, as far as status codes and the
pagination metadata are concerned (the page contents themselves come from
the store and are not at issue in the pagination claims). -/
inductive PageResult where
  | badRequest (message : String)
  | notFound
  | okPage (currentPage : Int) (totalPages : Nat) (total : Nat) (limit : Int)
deriving DecidableEq

/-- HTTP status of a paginated query outcome. -/
def PageResult.statusCode : PageResult → Nat
  | PageResult.badRequest _ => 400
  | PageResult.notFound => 404
  | PageResult.okPage _ _ _ _ => 200

/-- `Math.ceil(total / limit)` as computed over the exact integers. -/
def totalPagesOf (total : Nat) (limit : Nat) : Nat :=
  (total + limit - 1) / limit

/-- `getDeviceList`, pagination skeleton: `page`/`limit` are the raw query
strings fed to `parseInt`, and `totalDevices` stands for the result of
`DeviceMetadata.countDocuments(filterQuery)` (the store round-trip).  The
search/sort parameters do not influence status or metadata and are omitted. -/
def getDeviceList (pageStr limitStr : String) (totalDevices : Nat) : PageResult :=
  match jsParseInt pageStr, jsParseInt limitStr with
  | some page, some limit =>
    if page < 1 || limit < 1 then PageResult.badRequest "Invalid pagination parameters."
    else
      let totalPages := totalPagesOf totalDevices limit.toNat
      if (totalPages : Int) < page && 0 < totalPages then PageResult.notFound
      else PageResult.okPage page totalPages totalDevices limit
  | _, _ => PageResult.badRequest "Invalid pagination parameters."

/-- `getTelemetryReadings`, pagination skeleton: after the pagination check,
each non-empty timestamp filter string must parse (`new Date(s)` not `NaN`,
modelled by `pd`), and `totalReadings` stands for
`TelemetryReading.countDocuments(filterQuery)`. -/
def getTelemetryReadings (pd : String → Option Int) (pageStr limitStr startStr endStr : String)
    (totalReadings : Nat) : PageResult :=
  match jsParseInt pageStr, jsParseInt limitStr with
  | some page, some limit =>
    if page < 1 || limit < 1 then PageResult.badRequest "Invalid pagination parameters."
    else if (startStr != "") && (pd startStr).isNone then
      PageResult.badRequest "Invalid startTimestamp format. Must be a valid date string or timestamp."
    else if (endStr != "") && (pd endStr).isNone then
      PageResult.badRequest "Invalid endTimestamp format. Must be a valid date string or timestamp."
    else
      let totalPages := totalPagesOf totalReadings limit.toNat
      if (totalPages : Int) < page && 0 < totalPages then PageResult.notFound
      else PageResult.okPage page totalPages totalReadings limit
  | _, _ => PageResult.badRequest "Invalid pagination parameters."

/-! ### Helper facts and concrete instances used by the claim theorems -/

/-- `ratFloor` agrees with the mathematical floor. -/
theorem ratFloor_eq_floor (q : ℚ) : ratFloor q = ⌊q⌋ := Rat.floor_def.symm

/-- A concrete instance of the platform date parser: the values are the real
`new Date(s).getTime()` results for these strings (the epoch instant maps to
`0`). -/
def pd0 : String → Option Int := fun s =>
  if s == "1970-01-01T00:00:00.000Z" then some 0
  else if s == "2025-01-01T00:00:00.000Z" then some 1735689600000
  else none

/-- A one-element store: the example reading of the specification. -/
def rdK : List Reading :=
  [{ deviceId := "plug-1", timestampMs := 50000, reading := 100, unit := "W",
     location := "Kitchen", deviceType := "smart_plug" }]

/-! ### C9: broadcast reaches exactly the open connections -/

/-- C9: if the channel is uninitialised the broadcast is a no-op, and
otherwise the enveloped event is sent to exactly the connections in the
`opened` state — a `(client, message)` pair is sent iff the client is a
connection of the server, its state is `opened`, and the message is the
`new_reading` envelope; every non-open connection is skipped. -/
theorem c9_broadcast_open_only (reading : Reading) :
    broadcastNewReading none reading = [] ∧
    ∀ (w : WSServer) (c : WSClient) (m : BroadcastMsg),
      (c, m) ∈ broadcastNewReading (some w) reading ↔
        (c ∈ w.clients ∧ c.readyState = ReadyState.opened ∧
          m = { event := "new_reading", data := reading }) := by
  refine ⟨rfl, ?_⟩
  intro w c m
  simp only [broadcastNewReading, List.mem_map, List.mem_filter, decide_eq_true_eq,
    Prod.mk.injEq]
  constructor
  · rintro ⟨c2, ⟨hc2, hst⟩, hceq, hmeq⟩
    subst hceq
    exact ⟨hc2, hst, hmeq.symm⟩
  · rintro ⟨hc, hst, hm⟩
    exact ⟨c, ⟨hc, hst⟩, rfl, hm.symm⟩

def wsA : WSClient := { readyState := ReadyState.opened }

def wsB : WSClient := { readyState := ReadyState.closed }

def r9 : Reading :=
  { deviceId := "plug-1", timestampMs := 1000, reading := 100, unit := "W",
    location := "Kitchen", deviceType := "smart_plug" }

theorem c9_witness :
    broadcastNewReading none r9 = [] ∧
    (wsA, ({ event := "new_reading", data := r9 } : BroadcastMsg)) ∈
      broadcastNewReading (some { clients := [wsA, wsB] }) r9 ∧
    ∀ m, (wsB, m) ∉ broadcastNewReading (some { clients := [wsA, wsB] }) r9 := by
  have h := c9_broadcast_open_only r9
  refine ⟨h.1, (h.2 { clients := [wsA, wsB] } wsA _).mpr ⟨by simp, rfl, rfl⟩, ?_⟩
  intro m hm
  have h2 := (h.2 { clients := [wsA, wsB] } wsB m).mp hm
  exact absurd h2.2.1 (by decide)

/-! ### C10: non-array bodies are wrapped into a one-element batch -/

/-- C10: a non-array body is wrapped into the one-element batch `[body]`; the
empty-batch 400 response (`"No telemetry data provided."`) is produced iff
the body is exactly the empty array; and a single `null` body is validated as
one item, failing validation with one indexed error rather than hitting the
empty-batch branch. -/
theorem c10_nonarray_wrapped :
    (∀ body : JSValue, (∀ elems, body ≠ JSValue.arr elems) → readingsOf body = [body]) ∧
    (∀ (pd : String → Option Int) (body : JSValue) (store : List JSValue),
      (ingestTelemetry pd body store).1 = IngestResponse.noData ↔ body = JSValue.arr []) ∧
    (ingestTelemetry pd0 JSValue.null []).1 =
      IngestResponse.validationFailed 1 1 [(0, "Reading must be a non-null object.")] := by
  refine ⟨?_, ?_, by decide⟩
  · intro body h
    cases body with
    | arr elems => exact absurd rfl (h elems)
    | undef => rfl
    | null => rfl
    | bool b => rfl
    | num v => rfl
    | str s => rfl
    | obj fields => rfl
  · intro pd body store
    constructor
    · intro h
      cases body with
      | arr elems =>
        cases elems with
        | nil => rfl
        | cons e es =>
          simp only [ingestTelemetry, readingsOf] at h
          rw [if_neg (by simp)] at h
          split at h <;> exact absurd h (by simp)
      | undef =>
        simp only [ingestTelemetry, readingsOf] at h
        rw [if_neg (by simp)] at h
        split at h <;> exact absurd h (by simp)
      | null =>
        simp only [ingestTelemetry, readingsOf] at h
        rw [if_neg (by simp)] at h
        split at h <;> exact absurd h (by simp)
      | bool b =>
        simp only [ingestTelemetry, readingsOf] at h
        rw [if_neg (by simp)] at h
        split at h <;> exact absurd h (by simp)
      | num v =>
        simp only [ingestTelemetry, readingsOf] at h
        rw [if_neg (by simp)] at h
        split at h <;> exact absurd h (by simp)
      | str s =>
        simp only [ingestTelemetry, readingsOf] at h
        rw [if_neg (by simp)] at h
        split at h <;> exact absurd h (by simp)
      | obj fields =>
        simp only [ingestTelemetry, readingsOf] at h
        rw [if_neg (by simp)] at h
        split at h <;> exact absurd h (by simp)
    · rintro rfl
      rfl

theorem c10_witness :
    readingsOf JSValue.null = [JSValue.null] ∧
    (ingestTelemetry pd0 (JSValue.arr []) []).1 = IngestResponse.noData := by
  have h := c10_nonarray_wrapped
  exact ⟨h.1 JSValue.null (fun elems hne => JSValue.noConfusion hne),
    (h.2.1 pd0 (JSValue.arr []) []).mpr rfl⟩

/-! ### C7: summary defaults and formatting -/

/-- C7: with no readings matched in the trailing 24-hour window the summary
responds 200 with the zero-string defaults `"0.00"`/`"0.0"`; with readings
present it responds 200 with `totalUsage` the window sum divided by 1000 at
two decimals and `highestReading` the window maximum at one decimal. -/
theorem c7_summary_defaults_and_format (now : Int) (store : List Reading)
    (devices : List DeviceRow) :
    (summaryMatched now store = [] →
      (getTelemetrySummary now store devices).status = 200 ∧
      (getTelemetrySummary now store devices).totalUsage = "0.00" ∧
      (getTelemetrySummary now store devices).highestReading = "0.0") ∧
    (summaryMatched now store ≠ [] →
      (getTelemetrySummary now store devices).status = 200 ∧
      (getTelemetrySummary now store devices).totalUsage =
        toFixed 2 (((summaryMatched now store).map (fun r => r.reading)).sum / 1000) ∧
      (getTelemetrySummary now store devices).highestReading =
        toFixed 1 (listMax ((summaryMatched now store).map (fun r => r.reading)))) := by
  constructor
  · intro h
    simp [getTelemetrySummary, h]
  · intro h
    rcases hm : summaryMatched now store with _ | ⟨f, rest⟩
    · exact absurd hm h
    · simp [getTelemetrySummary, hm]

theorem c7_witness :
    summaryMatched 50000 rdK ≠ [] ∧
    (getTelemetrySummary 50000 rdK []).totalUsage = "0.10" ∧
    (getTelemetrySummary 50000 rdK []).highestReading = "100.0" := by
  have hm : summaryMatched 50000 rdK ≠ [] := by simp [summaryMatched, rdK]
  have h := (c7_summary_defaults_and_format 50000 rdK []).2 hm
  have hsum : ((summaryMatched 50000 rdK).map (fun r => r.reading)).sum / 1000 = (1 : ℚ) / 10 := by
    norm_num [summaryMatched, rdK]
  have hmax : listMax ((summaryMatched 50000 rdK).map (fun r => r.reading)) = (100 : ℚ) := by
    norm_num [summaryMatched, rdK, listMax]
  refine ⟨hm, ?_, ?_⟩
  · rw [h.2.1, hsum]
    have hf : ratFloor ((1 : ℚ) / 10 * (10 : ℚ) ^ 2 + 1 / 2) = 10 := by
      rw [ratFloor_eq_floor]
      rw [show ((1 : ℚ) / 10 * (10 : ℚ) ^ 2 + 1 / 2) = 21 / 2 by norm_num]
      exact Int.floor_eq_iff.mpr ⟨by norm_num, by norm_num⟩
    rw [toFixed, if_neg (by norm_num)]
    simp only [toFixedNonneg, hf]
    decide
  · rw [h.2.2, hmax]
    have hf : ratFloor ((100 : ℚ) * (10 : ℚ) ^ 1 + 1 / 2) = 1000 := by
      rw [ratFloor_eq_floor]
      rw [show ((100 : ℚ) * (10 : ℚ) ^ 1 + 1 / 2) = 2001 / 2 by norm_num]
      exact Int.floor_eq_iff.mpr ⟨by norm_num, by norm_num⟩
    rw [toFixed, if_neg (by norm_num)]
    simp only [toFixedNonneg, hf]
    decide

/-! ### C8: trend unit conversion and dataKey -/

/-- C8: when the unit-type filter is the base power unit `"W"` each bucket
sum is divided by 1000 and exposed under the field `usageKWh` with display
unit `kWh`; otherwise the raw sum is exposed under `totalReading` with the
requested unit; in both cases `dataKey` names the per-datum field. -/
theorem c8_trend_unit_conversion (windowQ unitTypeQ : Option String) (now : Int)
    (store : List Reading) :
    (unitTypeQ.getD "W" = "W" →
      (getEnergyTrends windowQ unitTypeQ now store).dataKey = "usageKWh" ∧
      (getEnergyTrends windowQ unitTypeQ now store).unit = "kWh" ∧
      (getEnergyTrends windowQ unitTypeQ now store).data =
        (trendBuckets (if windowQ.getD "24h" == "7d" then fmtDay else fmtHour)
            (trendMatched
              (if windowQ.getD "24h" == "7d" then now - 7 * 86400000 else now - 86400000)
              (unitTypeQ.getD "W") store)).map
          (fun b => { timeLabel := b.1, dataKey := "usageKWh", value := b.2 / 1000 })) ∧
    (unitTypeQ.getD "W" ≠ "W" →
      (getEnergyTrends windowQ unitTypeQ now store).dataKey = "totalReading" ∧
      (getEnergyTrends windowQ unitTypeQ now store).unit = unitTypeQ.getD "W" ∧
      (getEnergyTrends windowQ unitTypeQ now store).data =
        (trendBuckets (if windowQ.getD "24h" == "7d" then fmtDay else fmtHour)
            (trendMatched
              (if windowQ.getD "24h" == "7d" then now - 7 * 86400000 else now - 86400000)
              (unitTypeQ.getD "W") store)).map
          (fun b => { timeLabel := b.1, dataKey := "totalReading", value := b.2 })) := by
  constructor
  · intro h
    simp [getEnergyTrends, h]
  · intro h
    have hb : (unitTypeQ.getD "W" == "W") = false := by
      simp [h]
    simp [getEnergyTrends, hb]

theorem c8_witness :
    (getEnergyTrends none none 0 []).dataKey = "usageKWh" ∧
    (getEnergyTrends none none 0 []).unit = "kWh" ∧
    (getEnergyTrends none (some "C") 0 []).dataKey = "totalReading" ∧
    (getEnergyTrends none (some "C") 0 []).unit = "C" := by
  have h1 := (c8_trend_unit_conversion none none 0 []).1 rfl
  have h2 := (c8_trend_unit_conversion none (some "C") 0 []).2 (by decide)
  exact ⟨h1.1, h1.2.1, h2.1, h2.2.1⟩

/-! ### C1: any invalid item rejects the whole batch -/

/-- The indexed error list has one entry per invalid item. -/
theorem length_invalid_enumFrom (pd : String → Option Int) (k : Nat) (rs : List JSValue) :
    ((List.enumFrom k rs).filterMap
        (fun p => (validateReading pd p.2).map (fun e => (p.1, e)))).length =
      (rs.filter (fun r => (validateReading pd r).isSome)).length := by
  induction rs generalizing k with
  | nil => rfl
  | cons r rs ih =>
    simp only [List.enumFrom, List.filterMap_cons, List.filter_cons]
    cases h : validateReading pd r with
    | none => simpa [h] using ih (k + 1)
    | some e => simpa [h] using ih (k + 1)

theorem invalidReadingsOf_length (pd : String → Option Int) (rs : List JSValue) :
    (invalidReadingsOf pd rs).length =
      (rs.filter (fun r => (validateReading pd r).isSome)).length :=
  length_invalid_enumFrom pd 0 rs

/-- C1: a batch containing at least one invalid item is rejected with status
400, the reading store is unchanged (no partial insert), the response is the
`validationFailed` shape carrying the indexed error list, and that list has
exactly one entry per invalid item of the batch. -/
theorem c1_invalid_batch_rejected (pd : String → Option Int) (body : JSValue)
    (store : List JSValue)
    (h : ∃ r, r ∈ readingsOf body ∧ validateReading pd r ≠ none) :
    (ingestTelemetry pd body store).2 = store ∧
    (ingestTelemetry pd body store).1.statusCode = 400 ∧
    (ingestTelemetry pd body store).1 =
      IngestResponse.validationFailed (readingsOf body).length
        (invalidReadingsOf pd (readingsOf body)).length
        (invalidReadingsOf pd (readingsOf body)) ∧
    (invalidReadingsOf pd (readingsOf body)).length =
      ((readingsOf body).filter (fun r => (validateReading pd r).isSome)).length := by
  obtain ⟨r, hmem, hinv⟩ := h
  have hlen : (readingsOf body).length ≠ 0 := by
    intro h0
    rw [List.length_eq_zero] at h0
    rw [h0] at hmem
    exact absurd hmem (List.not_mem_nil r)
  have hisome : (validateReading pd r).isSome := by
    cases hv : validateReading pd r with
    | none => exact absurd hv hinv
    | some e => rfl
  have hfilter : 0 < ((readingsOf body).filter
      (fun x => (validateReading pd x).isSome)).length := by
    apply List.length_pos.mpr
    intro hnil
    have hrmem : r ∈ (readingsOf body).filter (fun x => (validateReading pd x).isSome) :=
      List.mem_filter.mpr ⟨hmem, hisome⟩
    rw [hnil] at hrmem
    exact absurd hrmem (List.not_mem_nil r)
  have hinvlen := invalidReadingsOf_length pd (readingsOf body)
  have hpos : 0 < (invalidReadingsOf pd (readingsOf body)).length := by
    rw [hinvlen]; exact hfilter
  simp only [ingestTelemetry]
  rw [if_neg (by simpa using hlen), if_pos hpos]
  exact ⟨rfl, rfl, rfl, hinvlen⟩

/-- A reading object passing every strict check (its timestamp is the real
`getTime()` value of 2025-01-01T00:00:00.000Z). -/
def goodItem : JSValue :=
  JSValue.obj [("deviceId", JSValue.str "plug-1"),
    ("timestamp", JSValue.str "2025-01-01T00:00:00.000Z"),
    ("reading", JSValue.num (some 5)), ("unit", JSValue.str "W"),
    ("location", JSValue.str "Kitchen"), ("deviceType", JSValue.str "smart_plug")]

theorem c1_witness :
    (ingestTelemetry pd0 (JSValue.arr [goodItem, JSValue.null]) []).2 = [] ∧
    (ingestTelemetry pd0 (JSValue.arr [goodItem, JSValue.null]) []).1.statusCode = 400 ∧
    (ingestTelemetry pd0 (JSValue.arr [goodItem, JSValue.null]) []).1 =
      IngestResponse.validationFailed
        (readingsOf (JSValue.arr [goodItem, JSValue.null])).length
        (invalidReadingsOf pd0 (readingsOf (JSValue.arr [goodItem, JSValue.null]))).length
        (invalidReadingsOf pd0 (readingsOf (JSValue.arr [goodItem, JSValue.null]))) ∧
    (invalidReadingsOf pd0 (readingsOf (JSValue.arr [goodItem, JSValue.null]))).length =
      ((readingsOf (JSValue.arr [goodItem, JSValue.null])).filter
        (fun r => (validateReading pd0 r).isSome)).length :=
  c1_invalid_batch_rejected pd0 (JSValue.arr [goodItem, JSValue.null]) []
    ⟨JSValue.null, List.mem_cons_of_mem goodItem (List.mem_cons_self JSValue.null []),
      by decide⟩

/-! ### C2: what the strict validator accepts (amended) -/

/-- C2 (amended): the strict validator accepts an item whose `deviceId`,
`unit`, `location`, `deviceType` are strings that are non-empty after
trimming whitespace, whose `reading` is a non-NaN number, and whose
`timestamp` is a string parsing to a valid date with nonzero
epoch-millisecond value.  (The claim as frozen — plain non-empty strings,
any valid-date timestamp — fails: see `c2_counterexample`.) -/
theorem c2_amended_validator_accepts (pd : String → Option Int) (v : JSValue)
    (did ts un loc dt : String) (t : Int) (q : ℚ)
    (hdid : getField v "deviceId" = JSValue.str did) (hdid2 : (jsTrim did).length ≠ 0)
    (hts : getField v "timestamp" = JSValue.str ts) (hts2 : pd ts = some t) (hts3 : t ≠ 0)
    (hr : getField v "reading" = JSValue.num (some q))
    (hu : getField v "unit" = JSValue.str un) (hu2 : (jsTrim un).length ≠ 0)
    (hl : getField v "location" = JSValue.str loc) (hl2 : (jsTrim loc).length ≠ 0)
    (hdt : getField v "deviceType" = JSValue.str dt) (hdt2 : (jsTrim dt).length ≠ 0) :
    validateReading pd v = none := by
  cases v with
  | obj fields =>
    simp only [validateReading, jsFalsy, jsTypeof, hdid, hts, hts2, hr, hu, hl, hdt]
    simp [hdid2, hts3, hu2, hl2, hdt2]
  | undef => simp [getField] at hdid
  | null => simp [getField] at hdid
  | bool b => simp [getField] at hdid
  | num w => simp [getField] at hdid
  | str s => simp [getField] at hdid
  | arr elems => simp [getField] at hdid

/-- A reading whose timestamp is the epoch instant: a perfectly valid ISO
date string whose `getTime()` is `0`. -/
def epochItem : JSValue :=
  JSValue.obj [("deviceId", JSValue.str "plug-1"),
    ("timestamp", JSValue.str "1970-01-01T00:00:00.000Z"),
    ("reading", JSValue.num (some 5)), ("unit", JSValue.str "W"),
    ("location", JSValue.str "Kitchen"), ("deviceType", JSValue.str "smart_plug")]

/-- A reading whose `deviceId` is the non-empty string `" "` (blank after
trimming). -/
def blankIdItem : JSValue :=
  JSValue.obj [("deviceId", JSValue.str " "),
    ("timestamp", JSValue.str "2025-01-01T00:00:00.000Z"),
    ("reading", JSValue.num (some 5)), ("unit", JSValue.str "W"),
    ("location", JSValue.str "Kitchen"), ("deviceType", JSValue.str "smart_plug")]

/-- C2 counterexample: both items satisfy the frozen claim's hypotheses —
every required field a non-empty string, `reading` a non-NaN number, and a
timestamp string that parses to a valid date (`pd0` maps it to its real
`getTime()` value) — yet the validator rejects both: the epoch timestamp is
refused because `!new Date(s).getTime()` is truthy at `0`, and the blank
`deviceId` because the check trims before testing emptiness. -/
theorem c2_counterexample :
    pd0 "1970-01-01T00:00:00.000Z" = some 0 ∧
    validateReading pd0 epochItem = some "timestamp must be a valid ISO date string." ∧
    validateReading pd0 blankIdItem = some "deviceId must be a non-empty string." :=
  ⟨rfl, by decide, by decide⟩

theorem c2_witness : validateReading pd0 goodItem = none :=
  c2_amended_validator_accepts pd0 goodItem "plug-1" "2025-01-01T00:00:00.000Z" "W" "Kitchen"
    "smart_plug" 1735689600000 5 rfl (by decide) rfl rfl (by decide) rfl rfl (by decide)
    rfl (by decide) rfl (by decide)

/-! ### C5: registry upsert uses the first reading per device -/

theorem find?_replace_eq (t : Registry) (id k : String) (row : DeviceRow) (hk : k ≠ id) :
    (t.map (fun p => if p.1 == id then (id, row) else p)).find? (fun p => p.1 == k) =
      t.find? (fun p => p.1 == k) := by
  induction t with
  | nil => rfl
  | cons p t ih =>
    simp only [List.map_cons]
    by_cases hpid : p.1 = id
    · rw [if_pos (by simpa using hpid)]
      rw [List.find?_cons_of_neg _ (by simp only [beq_iff_eq]; exact fun h => hk h.symm),
          List.find?_cons_of_neg _ (by simp only [beq_iff_eq, hpid]; exact fun h => hk h.symm)]
      exact ih
    · rw [if_neg (by simpa using hpid)]
      by_cases hpk : p.1 = k
      · rw [List.find?_cons_of_pos _ (by simpa using hpk),
            List.find?_cons_of_pos _ (by simpa using hpk)]
      · rw [List.find?_cons_of_neg _ (by simpa using hpk),
            List.find?_cons_of_neg _ (by simpa using hpk)]
        exact ih

theorem find?_replace_self (t : Registry) (id : String) (row : DeviceRow)
    (hany : t.any (fun p => p.1 == id) = true) :
    (t.map (fun p => if p.1 == id then (id, row) else p)).find? (fun p => p.1 == id) =
      some (id, row) := by
  induction t with
  | nil => simp at hany
  | cons p t ih =>
    simp only [List.map_cons]
    by_cases hpid : p.1 = id
    · rw [if_pos (by simpa using hpid)]
      rw [List.find?_cons_of_pos _ (by simp)]
    · rw [if_neg (by simpa using hpid)]
      rw [List.find?_cons_of_neg _ (by simpa using hpid)]
      apply ih
      simp only [List.any_cons, Bool.or_eq_true, beq_iff_eq] at hany
      rcases hany with h | h
      · exact absurd h hpid
      · exact h

/-- Effect of one upsert on a later lookup. -/
theorem lookup_setReg (reg : Registry) (id k : String) (row : DeviceRow) :
    lookupReg (setReg reg id row) k = if k = id then some row else lookupReg reg k := by
  unfold setReg lookupReg
  by_cases hany : reg.any (fun p => p.1 == id) = true
  · rw [if_pos hany]
    by_cases hk : k = id
    · subst hk
      rw [if_pos rfl, find?_replace_self reg k row hany]
      rfl
    · rw [if_neg hk, find?_replace_eq reg id k row hk]
  · rw [if_neg hany]
    by_cases hk : k = id
    · subst hk
      have hnone : reg.find? (fun p => p.1 == k) = none := by
        rw [List.find?_eq_none]
        intro x hx hbeq
        exact hany (List.any_eq_true.mpr ⟨x, hx, hbeq⟩)
      rw [if_pos rfl, List.find?_append, hnone]
      rw [List.find?_cons_of_pos _ (by simp)]
      rfl
    · rw [if_neg hk, List.find?_append]
      have htail : (([(id, row)] : Registry)).find? (fun p => p.1 == k) = none := by
        rw [List.find?_cons_of_neg _ (by simp only [beq_iff_eq]; exact fun h => hk h.symm)]
        rfl
      rw [htail]
      cases reg.find? (fun p => p.1 == k) <;> rfl

/-- Upserts under other device ids do not touch the row of `d`. -/
theorem lookup_foldl_preserve (saved : List Reading) (ks : List String) (reg : Registry)
    (d : String) (hd : d ∉ ks) :
    lookupReg (ks.foldl (upsertStep saved) reg) d = lookupReg reg d := by
  induction ks generalizing reg with
  | nil => rfl
  | cons k ks ih =>
    simp only [List.mem_cons, not_or] at hd
    rw [List.foldl_cons, ih _ hd.2]
    unfold upsertStep
    cases hf : saved.find? (fun r => r.deviceId == k) with
    | none => rfl
    | some r =>
      unfold upsertDeviceMetadata
      have hrk : r.deviceId = k := by simpa using List.find?_some hf
      rw [lookup_setReg, hrk, if_neg hd.1]

theorem mem_uniqueFirst (x : String) (l : List String) : x ∈ uniqueFirst l ↔ x ∈ l := by
  induction l with
  | nil => simp [uniqueFirst]
  | cons a l ih =>
    simp only [uniqueFirst, List.mem_cons, List.mem_filter, bne_iff_ne, ih]
    by_cases hxa : x = a
    · simp [hxa]
    · simp [hxa]

theorem nodup_uniqueFirst (l : List String) : (uniqueFirst l).Nodup := by
  induction l with
  | nil => exact List.nodup_nil
  | cons a l ih =>
    refine List.nodup_cons.mpr ⟨?_, ih.filter _⟩
    intro hmem
    have h := (List.mem_filter.mp hmem).2
    simp at h

/-- Folding the upsert loop over a duplicate-free key list containing `d`
leaves the row of the first reading found for `d`. -/
theorem lookup_foldl_upsert (saved : List Reading) (d : String) (r : Reading)
    (h : saved.find? (fun x => x.deviceId == d) = some r) :
    ∀ ks : List String, ks.Nodup → d ∈ ks → ∀ reg : Registry,
      lookupReg (ks.foldl (upsertStep saved) reg) d = some (rowOf r) := by
  intro ks
  induction ks with
  | nil => exact fun _ hmem _ => absurd hmem (List.not_mem_nil d)
  | cons k ks ih =>
    intro hnd hmem reg
    rw [List.foldl_cons]
    rcases List.mem_cons.mp hmem with heq | hmem2
    · subst heq
      have hnotin : d ∉ ks := (List.nodup_cons.mp hnd).1
      rw [lookup_foldl_preserve saved ks _ d hnotin]
      unfold upsertStep
      rw [h]
      unfold upsertDeviceMetadata
      have hrd : r.deviceId = d := by simpa using List.find?_some h
      rw [lookup_setReg, hrd, if_pos rfl]
    · exact ih (List.nodup_cons.mp hnd).2 hmem2 _

/-- C5: after an inserted batch is processed, the registry row keyed by each
inserted `deviceId` comes from the first reading for that device in
insertion order (`savedReadings.find`), with `name` mirroring the id,
`lastReported` that reading's timestamp, and `status` set to `"online"`
unconditionally. -/
theorem c5_registry_upsert_first (saved : List Reading) (reg : Registry) (d : String)
    (r : Reading) (h : saved.find? (fun x => x.deviceId == d) = some r) :
    lookupReg (processUpserts saved reg) d =
      some { name := r.deviceId, location := r.location, deviceType := r.deviceType,
             lastReported := r.timestampMs, status := "online" } := by
  have hrd : r.deviceId = d := by simpa using List.find?_some h
  have hdm : d ∈ saved.map (fun x => x.deviceId) :=
    List.mem_map.mpr ⟨r, List.mem_of_find?_eq_some h, hrd⟩
  exact lookup_foldl_upsert saved d r h _ (nodup_uniqueFirst _) ((mem_uniqueFirst _ _).mpr hdm) reg

/-- Two readings for the same device, in insertion order: the second has the
later timestamp. -/
def saved2 : List Reading :=
  [{ deviceId := "dev-1", timestampMs := 200, reading := 1, unit := "W",
     location := "Kitchen", deviceType := "plug" },
   { deviceId := "dev-1", timestampMs := 500, reading := 2, unit := "W",
     location := "Porch", deviceType := "plug" }]

theorem c5_witness :
    saved2.find? (fun x => x.deviceId == "dev-1") =
      some { deviceId := "dev-1", timestampMs := 200, reading := 1, unit := "W",
             location := "Kitchen", deviceType := "plug" } ∧
    lookupReg (processUpserts saved2 []) "dev-1" =
      some { name := "dev-1", location := "Kitchen", deviceType := "plug",
             lastReported := 200, status := "online" } :=
  ⟨rfl, c5_registry_upsert_first saved2 [] "dev-1"
    { deviceId := "dev-1", timestampMs := 200, reading := 1, unit := "W",
      location := "Kitchen", deviceType := "plug" } rfl⟩

/-! ### C6: breakdown groups, the sentinel, and the window total -/

theorem sum_map_filter_split (l : List Reading) (p : Reading → Bool) :
    ((l.filter p).map (fun r => r.reading)).sum +
      ((l.filter (fun r => !p r)).map (fun r => r.reading)).sum =
      (l.map (fun r => r.reading)).sum := by
  induction l with
  | nil => simp
  | cons r t ih =>
    by_cases h : p r
    · simp only [List.filter_cons, h, if_pos, Bool.not_true, List.map_cons, List.sum_cons,
        Bool.false_eq_true, if_false]
      rw [← ih]; ring
    · simp only [List.filter_cons, h, Bool.false_eq_true, if_false,
        Bool.not_false, if_pos, List.map_cons, List.sum_cons]
      rw [← ih]; ring

/-- Grouping partitions the sum: summing the per-key fiber sums over any
duplicate-free key list covering a document list gives the total sum. -/
theorem sum_fibers (key : Reading → String) :
    ∀ (ks : List String) (l : List Reading), ks.Nodup → (∀ x ∈ l, key x ∈ ks) →
      (ks.map (fiberSum key l)).sum = (l.map (fun r => r.reading)).sum := by
  intro ks
  induction ks with
  | nil =>
    intro l _ hcov
    cases l with
    | nil => simp
    | cons x t => exact absurd (hcov x (List.mem_cons_self x t)) (List.not_mem_nil _)
  | cons k ks ih =>
    intro l hnd hcov
    simp only [List.map_cons, List.sum_cons]
    have hfib : ∀ j ∈ ks,
        fiberSum key (l.filter (fun x => !(key x == k))) j = fiberSum key l j := by
      intro j hj
      have hjk : j ≠ k := fun hj2 => (List.nodup_cons.mp hnd).1 (hj2 ▸ hj)
      unfold fiberSum
      rw [List.filter_filter]
      congr 2
      apply List.filter_congr
      intro a _
      cases hc : (key a == j) with
      | true =>
        have hkj : key a = j := by simpa using hc
        have hks : (key a == k) = false := by simp [hkj, hjk]
        simp [hc, hks]
      | false => simp [hc]
    have hmap : ks.map (fiberSum key l) =
        ks.map (fiberSum key (l.filter (fun x => !(key x == k)))) :=
      List.map_congr_left (fun j hj => (hfib j hj).symm)
    rw [hmap, ih (l.filter (fun x => !(key x == k))) (List.nodup_cons.mp hnd).2 ?_]
    · exact sum_map_filter_split l (fun r => key r == k)
    · intro x hx
      have hx2 := List.mem_filter.mp hx
      have hkx := hcov x hx2.1
      rcases List.mem_cons.mp hkx with heq | hmem
      · exfalso
        rw [heq] at hx2
        simpa using hx2.2
      · exact hmem

theorem sum_map_div {α : Type} (l : List α) (f : α → ℚ) (c : ℚ) :
    (l.map (fun x => f x / c)).sum = (l.map f).sum / c := by
  induction l with
  | nil => simp
  | cons x t ih => simp [ih, add_div]

/-- C6 (amended): no emitted breakdown group is named the missing-value
sentinel, and the emitted values sum to the seven-day base-unit reading
total *over the documents whose grouped field is not the literal sentinel
string*, divided by 1000.  (The frozen claim — the total over all matching
documents — fails when a document's field equals the sentinel string: see
`c6_counterexample`.) -/
theorem c6_breakdown_amended (byQ : Option String) (now : Int) (store : List Reading) :
    (∀ g ∈ (getUsageBreakdown byQ now store).data, g.1 ≠ "UNKNOWN_OR_MISSING_FIELD") ∧
    ((getUsageBreakdown byQ now store).data.map (fun g => g.2)).sum =
      (((breakdownMatched now store).filter
          (fun r => breakdownKeyOf (byQ == some "category") r != "UNKNOWN_OR_MISSING_FIELD")).map
        (fun r => r.reading)).sum / 1000 := by
  constructor
  · intro g hg
    simp only [getUsageBreakdown, List.mem_filter, bne_iff_ne] at hg
    exact hg.2
  · simp only [getUsageBreakdown]
    rw [List.filter_map, List.map_map]
    have hcomp : ((fun g : String × ℚ => g.1 != "UNKNOWN_OR_MISSING_FIELD") ∘
        (fun k => (k, fiberSum (breakdownKeyOf (byQ == some "category"))
          (breakdownMatched now store) k / 1000))) =
        fun k => k != "UNKNOWN_OR_MISSING_FIELD" := rfl
    rw [hcomp]
    have hcomp2 : ((fun g : String × ℚ => g.2) ∘
        (fun k => (k, fiberSum (breakdownKeyOf (byQ == some "category"))
          (breakdownMatched now store) k / 1000))) =
        fun k => fiberSum (breakdownKeyOf (byQ == some "category"))
          (breakdownMatched now store) k / 1000 := rfl
    rw [hcomp2, sum_map_div]
    congr 1
    have hfib : ∀ j ∈ (((breakdownMatched now store).map
        (breakdownKeyOf (byQ == some "category"))).dedup).filter
          (fun k => k != "UNKNOWN_OR_MISSING_FIELD"),
        fiberSum (breakdownKeyOf (byQ == some "category")) (breakdownMatched now store) j =
          fiberSum (breakdownKeyOf (byQ == some "category"))
            ((breakdownMatched now store).filter
              (fun r => breakdownKeyOf (byQ == some "category") r !=
                "UNKNOWN_OR_MISSING_FIELD")) j := by
      intro j hj
      have hjs : j ≠ "UNKNOWN_OR_MISSING_FIELD" := by
        have h2 := (List.mem_filter.mp hj).2
        simpa using h2
      unfold fiberSum
      rw [List.filter_filter]
      congr 2
      apply (List.filter_congr ?_).symm
      intro a _
      cases hc : (breakdownKeyOf (byQ == some "category") a == j) with
      | true =>
        have hkj : breakdownKeyOf (byQ == some "category") a = j := by simpa using hc
        have hks : (breakdownKeyOf (byQ == some "category") a ==
            "UNKNOWN_OR_MISSING_FIELD") = false := by simp [hkj, hjs]
        simp only [hc, hks, Bool.true_and, bne, Bool.not_false]
      | false => simp [hc]
    rw [List.map_congr_left hfib]
    apply sum_fibers
    · exact (List.nodup_dedup _).filter _
    · intro x hx
      have hx2 := List.mem_filter.mp hx
      apply List.mem_filter.mpr
      refine ⟨List.mem_dedup.mpr (List.mem_map.mpr ⟨x, hx2.1, rfl⟩), hx2.2⟩

/-- A validly shaped store whose single document's location happens to be
the literal sentinel string. -/
def cexStore6 : List Reading :=
  [{ deviceId := "d1", timestampMs := 1000, reading := 1000, unit := "W",
     location := "UNKNOWN_OR_MISSING_FIELD", deviceType := "plug" }]

/-- C6 counterexample: with a document whose location equals the sentinel
string, the emitted groups sum to 0 while the seven-day base-unit total
divided by 1000 is 1 — the frozen claim's equality fails. -/
theorem c6_counterexample :
    ((getUsageBreakdown none 1000 cexStore6).data.map (fun g => g.2)).sum ≠
      (((breakdownMatched 1000 cexStore6).map (fun r => r.reading)).sum) / 1000 := by
  have h1 : (getUsageBreakdown none 1000 cexStore6).data = [] := by decide
  have h2 : breakdownMatched 1000 cexStore6 = cexStore6 := by decide
  rw [h1, h2]
  norm_num [cexStore6]

/-! ### C3: pagination validation, metadata, and 404 -/

/-- `Math.ceil(a / m)`, computed by the handlers as `(a + m - 1) / m`,
equals the mathematical ceiling of `a / m`. -/
theorem totalPagesOf_eq_ceil (a m : Nat) (hm : 1 ≤ m) :
    ((totalPagesOf a m : Nat) : ℤ) = ⌈(a : ℚ) / (m : ℚ)⌉ := by
  have hm0 : 0 < m := hm
  have hmq : (0 : ℚ) < (m : ℚ) := by exact_mod_cast hm0
  unfold totalPagesOf
  rcases Nat.eq_zero_or_pos a with ha | ha
  · subst ha
    rw [Nat.div_eq_of_lt (by omega)]
    norm_num
  · obtain ⟨n, rfl⟩ : ∃ n, a = n + 1 := ⟨a - 1, by omega⟩
    have h1 : (n + 1 + m - 1) / m = n / m + 1 := by
      have h2 : n + 1 + m - 1 = n + m := by omega
      rw [h2, Nat.add_div_right n hm0]
    rw [h1, eq_comm, Int.ceil_eq_iff]
    set k := n / m with hk
    have hle : k * m ≤ n := Nat.div_mul_le_self n m
    have hlt : n < (k + 1) * m := by
      conv_lhs => rw [← Nat.div_add_mod n m]
      calc m * (n / m) + n % m < m * (n / m) + m :=
            Nat.add_lt_add_left (Nat.mod_lt n hm0) _
        _ = (n / m + 1) * m := by ring
    constructor
    · push_cast
      rw [lt_div_iff₀ hmq]
      have h8 : ((k * m : Nat) : ℚ) ≤ (n : ℚ) := by exact_mod_cast hle
      push_cast at h8
      linarith
    · push_cast
      rw [div_le_iff₀ hmq]
      have h11 : ((n : ℚ)) + 1 ≤ (((k + 1) * m : Nat) : ℚ) := by exact_mod_cast hlt
      push_cast at h11
      linarith

theorem getDeviceList_ok_inv (pageStr limitStr : String) (total : Nat)
    (c : Int) (tp tot : Nat) (lim : Int)
    (h : getDeviceList pageStr limitStr total = PageResult.okPage c tp tot lim) :
    tot = total ∧ 1 ≤ lim ∧ tp = totalPagesOf total lim.toNat := by
  unfold getDeviceList at h
  cases hp : jsParseInt pageStr with
  | none => rw [hp] at h; exact absurd h (by simp)
  | some p =>
    cases hl : jsParseInt limitStr with
    | none => rw [hp, hl] at h; exact absurd h (by simp)
    | some l =>
      rw [hp, hl] at h
      dsimp only at h
      by_cases hc1 : p < 1 ∨ l < 1
      · rw [if_pos (by simpa using hc1)] at h
        exact absurd h (by simp)
      · rw [if_neg (by simpa using hc1)] at h
        by_cases hc2 : ((totalPagesOf total l.toNat : Int) < p ∧ 0 < totalPagesOf total l.toNat)
        · rw [if_pos (by simpa using hc2)] at h
          exact absurd h (by simp)
        · rw [if_neg (by simpa using hc2)] at h
          rw [PageResult.okPage.injEq] at h
          obtain ⟨h3, h4, h5, h6⟩ := h
          refine ⟨h5.symm, ?_, ?_⟩
          · rw [← h6]; omega
          · rw [← h4, ← h6]

theorem getTelemetryReadings_ok_inv (pd : String → Option Int)
    (pageStr limitStr startStr endStr : String) (total : Nat)
    (c : Int) (tp tot : Nat) (lim : Int)
    (h : getTelemetryReadings pd pageStr limitStr startStr endStr total =
      PageResult.okPage c tp tot lim) :
    tot = total ∧ 1 ≤ lim ∧ tp = totalPagesOf total lim.toNat := by
  unfold getTelemetryReadings at h
  cases hp : jsParseInt pageStr with
  | none => rw [hp] at h; exact absurd h (by simp)
  | some p =>
    cases hl : jsParseInt limitStr with
    | none => rw [hp, hl] at h; exact absurd h (by simp)
    | some l =>
      rw [hp, hl] at h
      dsimp only at h
      by_cases hc1 : p < 1 ∨ l < 1
      · rw [if_pos (by simpa using hc1)] at h
        exact absurd h (by simp)
      · rw [if_neg (by simpa using hc1)] at h
        by_cases hcs : (startStr != "" && (pd startStr).isNone) = true
        · rw [if_pos hcs] at h
          exact absurd h (by simp)
        · rw [if_neg hcs] at h
          by_cases hce : (endStr != "" && (pd endStr).isNone) = true
          · rw [if_pos hce] at h
            exact absurd h (by simp)
          · rw [if_neg hce] at h
            by_cases hc2 : ((totalPagesOf total l.toNat : Int) < p ∧
                0 < totalPagesOf total l.toNat)
            · rw [if_pos (by simpa using hc2)] at h
              exact absurd h (by simp)
            · rw [if_neg (by simpa using hc2)] at h
              rw [PageResult.okPage.injEq] at h
              obtain ⟨h3, h4, h5, h6⟩ := h
              refine ⟨h5.symm, ?_, ?_⟩
              · rw [← h6]; omega
              · rw [← h4, ← h6]

/-- C3: for both paginated handlers, (i) any 200 response's metadata has
`totalPages = ⌈totalMatching / limit⌉`; (ii) valid pagination inputs whose
page exceeds a positive page count give 404; (iii) a non-numeric `page` or
`limit`, or one below 1, gives 400. -/
theorem c3_pagination (pd : String → Option Int) (pageStr limitStr startStr endStr : String)
    (total : Nat) :
    (∀ (c : Int) (tp tot : Nat) (lim : Int),
      getTelemetryReadings pd pageStr limitStr startStr endStr total =
          PageResult.okPage c tp tot lim →
        tot = total ∧ 1 ≤ lim ∧ (tp : ℤ) = ⌈(tot : ℚ) / (lim : ℚ)⌉) ∧
    (∀ (c : Int) (tp tot : Nat) (lim : Int),
      getDeviceList pageStr limitStr total = PageResult.okPage c tp tot lim →
        tot = total ∧ 1 ≤ lim ∧ (tp : ℤ) = ⌈(tot : ℚ) / (lim : ℚ)⌉) ∧
    (∀ p l : Int, jsParseInt pageStr = some p → jsParseInt limitStr = some l →
      1 ≤ p → 1 ≤ l → 0 < totalPagesOf total l.toNat →
      ((totalPagesOf total l.toNat : Nat) : ℤ) < p →
      (startStr = "" ∨ (pd startStr).isSome) → (endStr = "" ∨ (pd endStr).isSome) →
      getTelemetryReadings pd pageStr limitStr startStr endStr total = PageResult.notFound ∧
      getDeviceList pageStr limitStr total = PageResult.notFound) ∧
    ((jsParseInt pageStr = none ∨ jsParseInt limitStr = none ∨
        (∃ p, jsParseInt pageStr = some p ∧ p < 1) ∨
        (∃ l, jsParseInt limitStr = some l ∧ l < 1)) →
      (getTelemetryReadings pd pageStr limitStr startStr endStr total).statusCode = 400 ∧
      (getDeviceList pageStr limitStr total).statusCode = 400) := by
  have hcast : ∀ (tot : Nat) (lim : Int), 1 ≤ lim →
      ((totalPagesOf tot lim.toNat : Nat) : ℤ) = ⌈(tot : ℚ) / (lim : ℚ)⌉ := by
    intro tot lim hlim
    have h1 : 1 ≤ lim.toNat := by omega
    rw [totalPagesOf_eq_ceil tot lim.toNat h1]
    congr 1
    have h2 : ((lim.toNat : ℤ) : ℚ) = (lim : ℚ) := by
      rw [Int.toNat_of_nonneg (by omega)]
    push_cast at h2 ⊢
    rw [h2]
  refine ⟨?_, ?_, ?_, ?_⟩
  · intro c tp tot lim h
    obtain ⟨h1, h2, h3⟩ := getTelemetryReadings_ok_inv pd pageStr limitStr startStr endStr
      total c tp tot lim h
    subst h1
    exact ⟨rfl, h2, h3 ▸ hcast tot lim h2⟩
  · intro c tp tot lim h
    obtain ⟨h1, h2, h3⟩ := getDeviceList_ok_inv pageStr limitStr total c tp tot lim h
    subst h1
    exact ⟨rfl, h2, h3 ▸ hcast tot lim h2⟩
  · intro p l hp hl hp1 hl1 htp hlt hst het
    have hnot : ¬(p < 1 ∨ l < 1) := by omega
    constructor
    · unfold getTelemetryReadings
      rw [hp, hl]
      dsimp only
      rw [if_neg (by simpa using hnot)]
      rw [if_neg ?_, if_neg ?_, if_pos (by simp [hlt, htp])]
      · rcases het with h | h
        · simp [h]
        · simp only [Bool.and_eq_true, bne_iff_ne, ne_eq, not_and]
          intro _
          rw [Option.isNone_iff_eq_none]
          intro hnone
          rw [hnone] at h
          exact absurd h (by simp)
      · rcases hst with h | h
        · simp [h]
        · simp only [Bool.and_eq_true, bne_iff_ne, ne_eq, not_and]
          intro _
          rw [Option.isNone_iff_eq_none]
          intro hnone
          rw [hnone] at h
          exact absurd h (by simp)
    · unfold getDeviceList
      rw [hp, hl]
      dsimp only
      rw [if_neg (by simpa using hnot), if_pos (by simp [hlt, htp])]
  · intro hbad
    constructor
    · unfold getTelemetryReadings
      rcases hbad with h | h | ⟨p, hp, hp1⟩ | ⟨l, hl, hl1⟩
      · rw [h]
        cases jsParseInt limitStr <;> rfl
      · rw [h]
        cases jsParseInt pageStr <;> rfl
      · rw [hp]
        cases hl : jsParseInt limitStr with
        | none => rfl
        | some l =>
          dsimp only
          rw [if_pos (by simp only [Bool.or_eq_true, decide_eq_true_eq]; omega)]
          rfl
      · rw [hl]
        cases hp : jsParseInt pageStr with
        | none => rfl
        | some p =>
          dsimp only
          rw [if_pos (by simp only [Bool.or_eq_true, decide_eq_true_eq]; omega)]
          rfl
    · unfold getDeviceList
      rcases hbad with h | h | ⟨p, hp, hp1⟩ | ⟨l, hl, hl1⟩
      · rw [h]
        cases jsParseInt limitStr <;> rfl
      · rw [h]
        cases jsParseInt pageStr <;> rfl
      · rw [hp]
        cases hl : jsParseInt limitStr with
        | none => rfl
        | some l =>
          dsimp only
          rw [if_pos (by simp only [Bool.or_eq_true, decide_eq_true_eq]; omega)]
          rfl
      · rw [hl]
        cases hp : jsParseInt pageStr with
        | none => rfl
        | some p =>
          dsimp only
          rw [if_pos (by simp only [Bool.or_eq_true, decide_eq_true_eq]; omega)]
          rfl

theorem c3_witness :
    getTelemetryReadings pd0 "5" "20" "" "" 42 = PageResult.notFound ∧
    getDeviceList "5" "20" 42 = PageResult.notFound :=
  (c3_pagination pd0 "5" "20" "" "" 42).2.2.1 5 20 (by decide) (by decide)
    (by decide) (by decide) (by decide) (by decide) (Or.inl rfl) (Or.inl rfl)

/-! ### C4: trend bucket counts and ordering -/

theorem charListLe_total : ∀ as bs, charListLe as bs = true ∨ charListLe bs as = true := by
  intro as
  induction as with
  | nil => intro bs; left; rfl
  | cons a as ih =>
    intro bs
    cases bs with
    | nil => right; rfl
    | cons b bs =>
      by_cases hab : a < b
      · left; simp [charListLe, hab]
      · by_cases hba : b < a
        · right; simp [charListLe, hba, asymm hba]
        · rcases ih bs with h | h
          · left; simp [charListLe, hab, hba, h]
          · right; simp [charListLe, hab, hba, h]

theorem charListLe_trans : ∀ as bs cs, charListLe as bs = true → charListLe bs cs = true →
    charListLe as cs = true := by
  intro as
  induction as with
  | nil => intro bs cs h1 h2; rfl
  | cons a as ih =>
    intro bs cs h1 h2
    cases bs with
    | nil => simp [charListLe] at h1
    | cons b bs =>
      cases cs with
      | nil => simp [charListLe] at h2
      | cons c cs =>
        simp only [charListLe] at h1 h2 ⊢
        by_cases hab : a < b
        · by_cases hbc : b < c
          · rw [if_pos (lt_trans hab hbc)]
          · by_cases hcb : c < b
            · rw [if_neg hbc, if_pos hcb] at h2
              exact absurd h2 (by simp)
            · have hac : a < c := lt_of_lt_of_le hab (le_of_not_lt hcb)
              rw [if_pos hac]
        · by_cases hba : b < a
          · rw [if_neg hab, if_pos hba] at h1
            exact absurd h1 (by simp)
          · have heq : a = b := le_antisymm (le_of_not_lt hba) (le_of_not_lt hab)
            subst heq
            rw [if_neg hab, if_neg hab] at h1
            by_cases hac : a < c
            · rw [if_pos hac]
            · rw [if_neg hac] at h2 ⊢
              by_cases hca : c < a
              · rw [if_pos hca] at h2
                exact absurd h2 (by simp)
              · rw [if_neg hca] at h2 ⊢
                exact ih bs cs h1 h2

instance : IsTotal String (fun a b => strLe a b = true) :=
  ⟨fun a b => charListLe_total a.data b.data⟩

instance : IsTrans String (fun a b => strLe a b = true) :=
  ⟨fun a b c => charListLe_trans a.data b.data c.data⟩

/-- Distinct values drawn from the image of an integer interval are at most
as many as the interval's length. -/
theorem dedup_length_le_card (l : List String) (f : Int → String) (lo hi : Int)
    (h : ∀ s ∈ l, ∃ i, lo ≤ i ∧ i ≤ hi ∧ s = f i) :
    l.dedup.length ≤ (hi + 1 - lo).toNat := by
  have h1 : l.dedup.toFinset.card = l.dedup.length :=
    List.toFinset_card_of_nodup (List.nodup_dedup l)
  have h2 : l.dedup.toFinset ⊆ (Finset.Icc lo hi).image f := by
    intro s hs
    rw [List.mem_toFinset, List.mem_dedup] at hs
    obtain ⟨i, h3, h4, h5⟩ := h s hs
    exact Finset.mem_image.mpr ⟨i, Finset.mem_Icc.mpr ⟨h3, h4⟩, h5.symm⟩
  calc l.dedup.length = l.dedup.toFinset.card := h1.symm
    _ ≤ ((Finset.Icc lo hi).image f).card := Finset.card_le_card h2
    _ ≤ (Finset.Icc lo hi).card := Finset.card_image_le
    _ = (hi + 1 - lo).toNat := Int.card_Icc lo hi

theorem trendBuckets_length (fmt : Int → String) (matched : List Reading) :
    (trendBuckets fmt matched).length =
      ((matched.map (fun r => fmt r.timestampMs)).dedup).length := by
  unfold trendBuckets
  rw [List.length_map, List.length_insertionSort]

/-- The generic bucket-count bound: a trailing window of `n` periods of
length `d`, with every stored timestamp at most `now`, spans at most `n + 1`
distinct period indices (the window's ends may both be mid-period). -/
theorem trend_bucket_bound (d : Int) (hd : 0 < d) (n : Nat) (startTime now : Int)
    (g : Int → String) (unitType : String) (store : List Reading)
    (hwin : now = startTime + (n : Int) * d)
    (hle : ∀ r ∈ store, r.timestampMs ≤ now) :
    (trendBuckets (fun ms => g (ms / d)) (trendMatched startTime unitType store)).length
      ≤ n + 1 := by
  rw [trendBuckets_length]
  have hbound := dedup_length_le_card
    ((trendMatched startTime unitType store).map (fun r => g (r.timestampMs / d)))
    g (startTime / d) (startTime / d + (n : Int)) ?_
  · have htn : (startTime / d + (n : Int) + 1 - startTime / d).toNat = n + 1 := by omega
    rw [htn] at hbound
    exact hbound
  · intro s hs
    obtain ⟨r, hr, hfmt⟩ := List.mem_map.mp hs
    obtain ⟨hrs, hcond⟩ := List.mem_filter.mp hr
    simp only [Bool.and_eq_true, decide_eq_true_eq] at hcond
    refine ⟨r.timestampMs / d, Int.ediv_le_ediv hd hcond.1, ?_, hfmt.symm⟩
    have h2 : r.timestampMs ≤ now := hle r hrs
    have h3 : r.timestampMs / d ≤ now / d := Int.ediv_le_ediv hd h2
    rwa [hwin, Int.add_mul_ediv_right startTime (n : Int) (by omega)] at h3

theorem trendBuckets_sorted (fmt : Int → String) (matched : List Reading) :
    (trendBuckets fmt matched).Pairwise (fun a b => strLe a.1 b.1 = true) := by
  unfold trendBuckets
  exact List.Pairwise.map _ (fun a b hab => hab) (List.sorted_insertionSort _ _)

/-- C4 (amended): provided every stored timestamp is at most the query time,
the 7-day trend has at most **8** buckets and the 24-hour trend at most
**25** (both window ends can fall mid-bucket; the frozen bounds 7 and 24
fail — see `c4_counterexample`), and the buckets are sorted ascending by
their time label. -/
theorem c4_trend_bucket_bound_amended (windowQ unitTypeQ : Option String) (now : Int)
    (store : List Reading) (hle : ∀ r ∈ store, r.timestampMs ≤ now) :
    (windowQ.getD "24h" = "7d" →
      (getEnergyTrends windowQ unitTypeQ now store).data.length ≤ 8) ∧
    (windowQ.getD "24h" ≠ "7d" →
      (getEnergyTrends windowQ unitTypeQ now store).data.length ≤ 25) ∧
    (getEnergyTrends windowQ unitTypeQ now store).data.Pairwise
      (fun a b => strLe a.timeLabel b.timeLabel = true) := by
  refine ⟨?_, ?_, ?_⟩
  · intro hw
    have hwb : (windowQ.getD "24h" == "7d") = true := by simp [hw]
    simp only [getEnergyTrends, hwb, if_pos, List.length_map]
    have h := trend_bucket_bound 86400000 (by norm_num) 7 (now - 7 * 86400000) now
      fmtDayIdx (unitTypeQ.getD "W") store (by ring) hle
    exact h
  · intro hw
    have hwb : (windowQ.getD "24h" == "7d") = false := by simp [hw]
    simp only [getEnergyTrends, hwb, Bool.false_eq_true, if_false, List.length_map]
    have h := trend_bucket_bound 3600000 (by norm_num) 24 (now - 86400000) now
      fmtHourIdx (unitTypeQ.getD "W") store (by ring) hle
    exact h
  · simp only [getEnergyTrends]
    apply List.Pairwise.map _ ?_ (trendBuckets_sorted _ _)
    intro a b hab
    by_cases hcond : (unitTypeQ.getD "W" == "W") = true
    · simpa [hcond] using hab
    · simp only [hcond, Bool.false_eq_true, if_false]
      exact hab

/-- 25 readings, one per hour, spanning exactly the trailing 24-hour window
ending 1970-01-02T12:30Z (all timestamps at most the query time). -/
def store25 : List Reading :=
  (List.range 25).map (fun k =>
    { deviceId := "d", timestampMs := 45000000 + 3600000 * (k : Int), reading := 1,
      unit := "W", location := "L", deviceType := "T" })

/-- C4 counterexample: a 24-hour trend query over `store25` returns 25
buckets (hour labels 1970-01-01T12 through 1970-01-02T12), exceeding the
claimed bound of 24 even though no timestamp exceeds the query time. -/
theorem c4_counterexample :
    (∀ r ∈ store25, r.timestampMs ≤ 131400000) ∧
    24 < (getEnergyTrends none none 131400000 store25).data.length := by
  constructor
  · decide
  · decide

theorem c4_witness :
    (∀ r ∈ store25, r.timestampMs ≤ 131400000) ∧
    (getEnergyTrends none none 131400000 store25).data.length ≤ 25 :=
  ⟨by decide,
    (c4_trend_bucket_bound_amended none none 131400000 store25 (by decide)).2.1 (by decide)⟩
